import Mathlib

/-!
Verification development for the MI-MAC protocol simulation
(`mi_mac_sim.py`): a discrete-event simulation of a MAC protocol for
magneto-inductive wireless sensor networks under three coil
configurations.

The Python engine is shallowly embedded below.  Floating-point
quantities (times in milliseconds, currents in amperes, energies in
joules, byte counters stored in float arrays) are modelled as exact
rationals (`ℚ`).  The ambient randomness of the arrival generator
(`np.random.exponential` inter-arrival samples and `random.choice`
destination draws) is reified as an explicit input: each node receives a
finite list of `(inter_arrival_sample, choice_index)` pairs, the prefix
of the random stream the run consumes; `random.choice(seq)` is modelled
as indexing `seq` at `choice_index % seq.length`, which reaches every
element of `seq` and fails (returns `none`, the Python `IndexError`)
exactly when `seq` is empty.
-/

namespace MiMac

/-- Supply voltage `Vcc = 3.3` V. -/
def Vcc : ℚ := 33/10

/-- Wake-up transmit duration `tau_txW = 1.0` ms. -/
def tau_txW : ℚ := 1

/-- Acknowledgment transmit duration `tau_txAck = 0.7` ms. -/
def tau_txAck : ℚ := 7/10

/-- Data transmit duration `tau_txData = 3.0` ms. -/
def tau_txData : ℚ := 3

/-- Channel-sense duration `tau_sense = 0.5` ms. -/
def tau_sense : ℚ := 5/10

/-- Safety margin `tau_safe = 0.3` ms. -/
def tau_safe : ℚ := 3/10

/-- No-acknowledgment timeout `tau_noAck = tau_txW + tau_txAck + tau_safe`. -/
def tau_noAck : ℚ := tau_txW + tau_txAck + tau_safe

/-- Idle current `I_idle = 60e-6` A. -/
def I_idle : ℚ := 60/1000000

/-- Receive current `I_receive = 0.49e-3` A. -/
def I_receive : ℚ := 49/100000

/-- Sense current `I_sense = 0.74e-3` A. -/
def I_sense : ℚ := 74/100000

/-- Low transmit current `I_tx_low = 220e-3` A. -/
def I_tx_low : ℚ := 220/1000

/-- High transmit current `I_tx_high = 528e-3` A. -/
def I_tx_high : ℚ := 528/1000

/-- Wake-up packet size `size_W = 13` bytes. -/
def size_W : ℚ := 13

/-- Acknowledgment packet size `size_ACK = 9` bytes. -/
def size_ACK : ℚ := 9

/-- Data packet size `size_DATA = 24` bytes. -/
def size_DATA : ℚ := 24

/-- One communication attempt: `{'node': node, 'time': t, 'target': target}`. -/
structure Attempt where
  node : Nat
  time : ℚ
  target : Nat
deriving Repr, DecidableEq

/-- One ledger entry:
`{'start': .., 'end': .., 'sender': .., 'target': .., 'type': ..}`
with `type ∈ {"W", "ACK", "DATA"}`.  The Python key `'end'` is a Lean
keyword, hence the field name `end_`. -/
structure Transmission where
  start : ℚ
  end_ : ℚ
  sender : Nat
  target : Nat
  type : String
deriving Repr, DecidableEq

/-- The mutable state of `run_simulation`'s attempt loop: the
transmission ledger and the per-node accumulator arrays
(`np.zeros(N)`), plus the `attempts_done` counter. -/
structure SimState where
  transmissions : List Transmission
  energy : List ℚ
  bytes_sent : List ℚ
  bytes_success : List ℚ
  attempts_done : Nat
deriving Repr, DecidableEq

/-- `arr[i] += x` on a numpy array of length `N`, modelled on lists
(out-of-range `i` leaves the list unchanged; the simulation only ever
uses `i < N`). -/
def addAt (l : List ℚ) (i : Nat) (x : ℚ) : List ℚ :=
  l.set i (l.getD i 0 + x)

/-- Wake-up burst duration `W_dur` per configuration
(`config1`: `tau_txW * 3.0`; `config2`: `tau_txW`; otherwise — the
hybrid `else` branch — `tau_txW * 3.0`). -/
def W_dur (config_name : String) : ℚ :=
  if config_name = "config1" then tau_txW * 3
  else if config_name = "config2" then tau_txW
  else tau_txW * 3

/-- Wake-up transmit current `I_tx` per configuration
(`config1`: low; `config2`: high; hybrid `else` branch: high). -/
def I_txW (config_name : String) : ℚ :=
  if config_name = "config1" then I_tx_low
  else if config_name = "config2" then I_tx_high
  else I_tx_high

/-- Acknowledgment current (`config2`: high; otherwise low).  The
acknowledgment duration is `tau_txAck` in both branches of the source. -/
def ack_I (config_name : String) : ℚ :=
  if config_name = "config2" then I_tx_high else I_tx_low

/-- Data burst duration per configuration
(`config1`: `tau_txData * 3.0`; `config2`: `tau_txData`; else `tau_txData`). -/
def data_dur (config_name : String) : ℚ :=
  if config_name = "config1" then tau_txData * 3
  else if config_name = "config2" then tau_txData
  else tau_txData

/-- Data transmit current per configuration
(`config1`: low; `config2`: high; else low). -/
def data_I (config_name : String) : ℚ :=
  if config_name = "config1" then I_tx_low
  else if config_name = "config2" then I_tx_high
  else I_tx_low

/-- The collision scan of `run_simulation` (lines 92–98): over a ledger
prefix, report a collision when some entry has the candidate's target,
type `'W'`, and `not (tr['end'] <= W_start or tr['start'] >= W_end)`. -/
def check_collision (ledger : List Transmission) (target : Nat)
    (W_start W_end : ℚ) : Bool :=
  ledger.any fun tr =>
    tr.target == target && tr.type == "W" &&
      !(decide (tr.end_ ≤ W_start) || decide (tr.start ≥ W_end))

/-- The wake-up interval of an attempt: the wake-up starts after the
sense phase, at `a.time + tau_sense`, and lasts `W_dur`. -/
def wake_start (a : Attempt) : ℚ := a.time + tau_sense

/-- End of the wake-up interval. -/
def wake_end (config_name : String) (a : Attempt) : ℚ :=
  wake_start a + W_dur config_name

/-- Whether the attempt `a`, processed in state `s`, is marked collided:
the collision scan runs over `transmissions[:-1]`, i.e. over the ledger
as it was *before* the candidate wake-up record was appended, so the
candidate itself is excluded. -/
def attempt_collided (config_name : String) (s : SimState) (a : Attempt) : Bool :=
  check_collision s.transmissions a.target (wake_start a) (wake_end config_name a)

/-- The candidate wake-up Transmission record of attempt `a`. -/
def wake_record (config_name : String) (a : Attempt) : Transmission :=
  ⟨wake_start a, wake_end config_name a, a.node, a.target, "W"⟩

/-- Acknowledgment start: `ACK_start = time + 0.1` where `time = W_end`. -/
def ack_start (config_name : String) (a : Attempt) : ℚ :=
  wake_end config_name a + 1/10

/-- Acknowledgment end: `ACK_end = ACK_start + ack_dur` with `ack_dur = tau_txAck`. -/
def ack_end (config_name : String) (a : Attempt) : ℚ :=
  ack_start config_name a + tau_txAck

/-- The acknowledgment Transmission record: sent by the target back to
the sender. -/
def ack_record (config_name : String) (a : Attempt) : Transmission :=
  ⟨ack_start config_name a, ack_end config_name a, a.target, a.node, "ACK"⟩

/-- Data start: `DATA_start = time + 0.05` where `time = ACK_end`. -/
def data_start (config_name : String) (a : Attempt) : ℚ :=
  ack_end config_name a + 1/20

/-- Data end: `DATA_end = DATA_start + data_dur`. -/
def data_end (config_name : String) (a : Attempt) : ℚ :=
  data_start config_name a + data_dur config_name

/-- The data Transmission record. -/
def data_record (config_name : String) (a : Attempt) : Transmission :=
  ⟨data_start config_name a, data_end config_name a, a.node, a.target, "DATA"⟩

/-- The outcome of a collided attempt (lines 68–104): the sense and
wake-up charges (which in the source precede the branch) followed by the
collision branch: the idle charge for `tau_noAck`, `bytes_sent +=
size_W`, `attempts_done += 1`, and the ledger extended by the wake-up
record alone. -/
def step_collided (config_name : String) (s : SimState) (a : Attempt) : SimState :=
  { transmissions := s.transmissions ++ [wake_record config_name a]
    energy :=
      addAt (addAt (addAt (addAt s.energy
        a.node ((I_sense * Vcc) * tau_sense / 1000))
        a.target ((I_receive * Vcc) * (tau_sense / 2) / 1000))
        a.node ((I_txW config_name * Vcc) * (W_dur config_name / 1000)))
        a.node ((I_idle * Vcc) * (tau_noAck / 1000))
    bytes_sent := addAt s.bytes_sent a.node size_W
    bytes_success := s.bytes_success
    attempts_done := s.attempts_done + 1 }

/-- The outcome of a non-collided attempt (lines 68–136): sense and
wake-up charges, then the wake-up receive, acknowledgment and data
phases, with `bytes_sent += size_W + size_ACK + size_DATA` and
`bytes_success += size_DATA` both on the *sender*. -/
def step_success (config_name : String) (s : SimState) (a : Attempt) : SimState :=
  { transmissions :=
      s.transmissions ++ [wake_record config_name a]
        ++ [ack_record config_name a] ++ [data_record config_name a]
    energy :=
      addAt (addAt (addAt (addAt (addAt (addAt (addAt (addAt s.energy
        a.node ((I_sense * Vcc) * tau_sense / 1000))
        a.target ((I_receive * Vcc) * (tau_sense / 2) / 1000))
        a.node ((I_txW config_name * Vcc) * (W_dur config_name / 1000)))
        a.target ((I_receive * Vcc) * (W_dur config_name / 1000)))
        a.target ((ack_I config_name * Vcc) * (tau_txAck / 1000)))
        a.node ((I_receive * Vcc) * (tau_txAck / 1000)))
        a.node ((data_I config_name * Vcc) * (data_dur config_name / 1000)))
        a.target ((I_receive * Vcc) * (data_dur config_name / 1000))
    bytes_sent := addAt s.bytes_sent a.node (size_W + size_ACK + size_DATA)
    bytes_success := addAt s.bytes_success a.node size_DATA
    attempts_done := s.attempts_done + 1 }

/-- One iteration of `run_simulation`'s attempt loop (lines 68–136):
sense, wake-up transmit (record appended before the collision check),
collision check over the ledger as it was before the append, then either
the collided or the successful completion path. -/
def step (config_name : String) (s : SimState) (a : Attempt) : SimState :=
  if attempt_collided config_name s a then step_collided config_name s a
  else step_success config_name s a

/-- The fresh state at the start of a run: empty ledger and
`np.zeros(N)` accumulators. -/
def initState (N : Nat) : SimState :=
  ⟨[], List.replicate N 0, List.replicate N 0, List.replicate N 0, 0⟩

/-- The baseline idle charge loop (lines 138–140):
`for n in range(N): energy[n] += (I_idle * Vcc) * (sim_time / 1000.0)`. -/
def add_baseline (N : Nat) (sim_time : ℚ) (energy : List ℚ) : List ℚ :=
  (List.range N).foldl (fun e n => addAt e n ((I_idle * Vcc) * (sim_time / 1000))) energy

/-- The value returned by `run_simulation`: the per-node data frame
columns, the total delivered bytes `df['bytes_success'].sum()`, and the
attempt counter. -/
structure RunResult where
  node : List Nat
  energy_J : List ℚ
  bytes_sent : List ℚ
  bytes_success : List ℚ
  total_throughput_bytes : ℚ
  attempts_done : Nat
deriving Repr, DecidableEq

/-- The deterministic core of `run_simulation` (lines 62–149), applied
to an already-generated attempt stream: fold the attempt loop over the
stream from the fresh state, add the idle baseline, and package the
result. -/
def run_core (N : Nat) (sim_time : ℚ) (config_name : String)
    (attempts : List Attempt) : RunResult :=
  let s := attempts.foldl (step config_name) (initState N)
  { node := List.range N
    energy_J := add_baseline N sim_time s.energy
    bytes_sent := s.bytes_sent
    bytes_success := s.bytes_success
    total_throughput_bytes := s.bytes_success.sum
    attempts_done := s.attempts_done }

/-- The candidate-destination list `[x for x in range(N) if x != node]`. -/
def choice_pool (N : Nat) (node : Nat) : List Nat :=
  (List.range N).filter fun x => x ≠ node

/-- `random.choice(pool)`: returns an arbitrary element of `pool`, the
one selected by the reified draw `c` (indexing at `c % pool.length`
reaches every element); on an empty pool it is the Python `IndexError`,
modelled as `none`. -/
def random_choice (pool : List Nat) (c : Nat) : Option Nat :=
  pool[c % pool.length]?

/-- The attempt-generation loop of `schedule_attempts` for one node:
`while t < sim_time: t += isi; if t >= sim_time: break; target = random.choice([x for x in range(N) if x != node]); append`.
The random draws are the input list `draws` of
`(inter_arrival_sample, choice_index)` pairs (the finite prefix of the
random stream the loop consumes; the loop stops when it is exhausted). -/
def gen_node (N : Nat) (node : Nat) (sim_time : ℚ) :
    ℚ → List (ℚ × Nat) → Option (List Attempt)
  | _, [] => some []
  | t, d :: rest =>
    if t < sim_time then
      if t + d.1 ≥ sim_time then some []
      else
        (random_choice (choice_pool N node) d.2).bind fun target =>
          (gen_node N node sim_time (t + d.1) rest).map
            fun as => ⟨node, t + d.1, target⟩ :: as
    else some []

/-- The outer loop of `schedule_attempts`: `for node in range(N)`,
appending each node's attempts to one list. -/
def gen_all (N : Nat) (sim_time : ℚ) (draws : Nat → List (ℚ × Nat)) :
    List Nat → Option (List Attempt)
  | [] => some []
  | node :: rest => do
    let as ← gen_node N node sim_time 0 (draws node)
    let more ← gen_all N sim_time draws rest
    pure (as ++ more)

/-- `schedule_attempts(N, sim_time, lam)` (lines 44–57): generate every
node's attempts, concatenate, and sort by time ascending (Python's
stable `list.sort`, modelled by the stable `mergeSort`).  The random
draws consumed (exponential inter-arrival samples with mean `1/lam`,
and destination choices) are supplied per node by `draws`. -/
def schedule_attempts (N : Nat) (sim_time : ℚ)
    (draws : Nat → List (ℚ × Nat)) : Option (List Attempt) :=
  (gen_all N sim_time draws (List.range N)).map
    fun l => l.mergeSort fun a b => decide (a.time ≤ b.time)

/-- `run_simulation(config_name)` (lines 60–149): generate the attempt
stream, then run the deterministic core on it.  Fails (`none`) exactly
when generation fails. -/
def run_simulation (N : Nat) (sim_time : ℚ) (draws : Nat → List (ℚ × Nat))
    (config_name : String) : Option RunResult :=
  (schedule_attempts N sim_time draws).map (run_core N sim_time config_name)

/-- The per-attempt collision verdicts of a run, in processing order:
`collided_flags config s attempts` records, for each attempt, whether
it is marked collided when processed from state `s`. -/
def collided_flags (config_name : String) : SimState → List Attempt → List Bool
  | _, [] => []
  | s, a :: rest =>
      attempt_collided config_name s a :: collided_flags config_name (step config_name s a) rest

/-! ### Helper lemmas about `addAt` -/

theorem addAt_length (l : List ℚ) (i : Nat) (x : ℚ) :
    (addAt l i x).length = l.length :=
  List.length_set l i _

theorem getD_addAt_self {l : List ℚ} {i : Nat} (x : ℚ) (h : i < l.length) :
    (addAt l i x).getD i 0 = l.getD i 0 + x := by
  simp [addAt, List.getD_eq_getElem?_getD, List.getElem?_set_self h]

theorem getD_addAt_ne {i j : Nat} (l : List ℚ) (x : ℚ) (h : i ≠ j) :
    (addAt l i x).getD j 0 = l.getD j 0 := by
  simp [addAt, List.getD_eq_getElem?_getD, List.getElem?_set_ne h]

theorem le_getD_addAt (l : List ℚ) (i j : Nat) {x : ℚ} (hx : 0 ≤ x) :
    l.getD j 0 ≤ (addAt l i x).getD j 0 := by
  rcases eq_or_ne i j with rfl | hne
  · rcases lt_or_le i l.length with h | h
    · rw [getD_addAt_self x h]
      exact le_add_of_nonneg_right hx
    · rw [addAt, List.set_eq_of_length_le h]
  · rw [getD_addAt_ne l x hne]

/-! ### Non-negativity of each energy charge of the attempt loop -/

theorem sense_sender_charge_nonneg : 0 ≤ (I_sense * Vcc) * tau_sense / 1000 := by
  norm_num [I_sense, Vcc, tau_sense]

theorem sense_target_charge_nonneg : 0 ≤ (I_receive * Vcc) * (tau_sense / 2) / 1000 := by
  norm_num [I_receive, Vcc, tau_sense]

theorem wake_charge_nonneg (c : String) : 0 ≤ (I_txW c * Vcc) * (W_dur c / 1000) := by
  unfold I_txW W_dur
  split_ifs <;> norm_num [I_tx_low, I_tx_high, tau_txW, Vcc]

theorem noAck_charge_nonneg : 0 ≤ (I_idle * Vcc) * (tau_noAck / 1000) := by
  norm_num [I_idle, Vcc, tau_noAck, tau_txW, tau_txAck, tau_safe]

theorem wake_receive_charge_nonneg (c : String) : 0 ≤ (I_receive * Vcc) * (W_dur c / 1000) := by
  unfold W_dur
  split_ifs <;> norm_num [I_receive, tau_txW, Vcc]

theorem ack_target_charge_nonneg (c : String) : 0 ≤ (ack_I c * Vcc) * (tau_txAck / 1000) := by
  unfold ack_I
  split_ifs <;> norm_num [I_tx_low, I_tx_high, tau_txAck, Vcc]

theorem ack_sender_charge_nonneg : 0 ≤ (I_receive * Vcc) * (tau_txAck / 1000) := by
  norm_num [I_receive, Vcc, tau_txAck]

theorem data_charge_nonneg (c : String) : 0 ≤ (data_I c * Vcc) * (data_dur c / 1000) := by
  unfold data_I data_dur
  split_ifs <;> norm_num [I_tx_low, I_tx_high, tau_txData, Vcc]

theorem data_receive_charge_nonneg (c : String) : 0 ≤ (I_receive * Vcc) * (data_dur c / 1000) := by
  unfold data_dur
  split_ifs <;> norm_num [I_receive, tau_txData, Vcc]

theorem baseline_charge_nonneg {T : ℚ} (hT : 0 ≤ T) : 0 ≤ (I_idle * Vcc) * (T / 1000) := by
  have : (0:ℚ) ≤ I_idle * Vcc := by norm_num [I_idle, Vcc]
  positivity

/-! ### Per-step facts -/

theorem step_energy_le (c : String) (s : SimState) (a : Attempt) (j : Nat) :
    s.energy.getD j 0 ≤ (step c s a).energy.getD j 0 := by
  unfold step
  split
  · exact le_trans (le_getD_addAt _ _ _ sense_sender_charge_nonneg) <|
      le_trans (le_getD_addAt _ _ _ sense_target_charge_nonneg) <|
      le_trans (le_getD_addAt _ _ _ (wake_charge_nonneg c))
        (le_getD_addAt _ _ _ noAck_charge_nonneg)
  · exact le_trans (le_getD_addAt _ _ _ sense_sender_charge_nonneg) <|
      le_trans (le_getD_addAt _ _ _ sense_target_charge_nonneg) <|
      le_trans (le_getD_addAt _ _ _ (wake_charge_nonneg c)) <|
      le_trans (le_getD_addAt _ _ _ (wake_receive_charge_nonneg c)) <|
      le_trans (le_getD_addAt _ _ _ (ack_target_charge_nonneg c)) <|
      le_trans (le_getD_addAt _ _ _ ack_sender_charge_nonneg) <|
      le_trans (le_getD_addAt _ _ _ (data_charge_nonneg c))
        (le_getD_addAt _ _ _ (data_receive_charge_nonneg c))

theorem step_bytes_sent_le (c : String) (s : SimState) (a : Attempt) (j : Nat) :
    s.bytes_sent.getD j 0 ≤ (step c s a).bytes_sent.getD j 0 := by
  unfold step
  split
  · exact le_getD_addAt _ _ _ (by norm_num [size_W])
  · exact le_getD_addAt _ _ _ (by norm_num [size_W, size_ACK, size_DATA])

theorem step_bytes_success_le (c : String) (s : SimState) (a : Attempt) (j : Nat) :
    s.bytes_success.getD j 0 ≤ (step c s a).bytes_success.getD j 0 := by
  unfold step
  split
  · exact le_refl _
  · exact le_getD_addAt _ _ _ (by norm_num [size_DATA])

theorem step_attempts_done (c : String) (s : SimState) (a : Attempt) :
    (step c s a).attempts_done = s.attempts_done + 1 := by
  unfold step
  split <;> rfl

theorem step_energy_length (c : String) (s : SimState) (a : Attempt) :
    (step c s a).energy.length = s.energy.length := by
  unfold step
  split <;> simp [step_collided, step_success, addAt_length]

theorem step_bytes_sent_length (c : String) (s : SimState) (a : Attempt) :
    (step c s a).bytes_sent.length = s.bytes_sent.length := by
  unfold step
  split <;> simp [step_collided, step_success, addAt_length]

theorem step_bytes_success_length (c : String) (s : SimState) (a : Attempt) :
    (step c s a).bytes_success.length = s.bytes_success.length := by
  unfold step
  split <;> simp [step_collided, step_success, addAt_length]

theorem step_wake_record_appended (c : String) (s : SimState) (a : Attempt) :
    (step c s a).transmissions.take (s.transmissions.length + 1)
      = s.transmissions ++ [wake_record c a] := by
  unfold step
  split
  · exact List.take_of_length_le (by simp [step_collided])
  · show ((s.transmissions ++ [wake_record c a] ++ _) ++ _).take _ = _
    rw [List.append_assoc]
    exact List.take_left' (by simp)

/-! ### Facts about the fold over the attempt stream -/

theorem foldl_energy_le (c : String) (l : List Attempt) (s : SimState) (j : Nat) :
    s.energy.getD j 0 ≤ (l.foldl (step c) s).energy.getD j 0 := by
  induction l generalizing s with
  | nil => exact le_refl _
  | cons a t ih => exact le_trans (step_energy_le c s a j) (ih (step c s a))

theorem foldl_bytes_sent_le (c : String) (l : List Attempt) (s : SimState) (j : Nat) :
    s.bytes_sent.getD j 0 ≤ (l.foldl (step c) s).bytes_sent.getD j 0 := by
  induction l generalizing s with
  | nil => exact le_refl _
  | cons a t ih => exact le_trans (step_bytes_sent_le c s a j) (ih (step c s a))

theorem foldl_bytes_success_le (c : String) (l : List Attempt) (s : SimState) (j : Nat) :
    s.bytes_success.getD j 0 ≤ (l.foldl (step c) s).bytes_success.getD j 0 := by
  induction l generalizing s with
  | nil => exact le_refl _
  | cons a t ih => exact le_trans (step_bytes_success_le c s a j) (ih (step c s a))

theorem foldl_attempts_done (c : String) (l : List Attempt) (s : SimState) :
    (l.foldl (step c) s).attempts_done = s.attempts_done + l.length := by
  induction l generalizing s with
  | nil => rfl
  | cons a t ih => rw [List.foldl_cons, ih, step_attempts_done, List.length_cons]; omega

theorem foldl_bytes_success_length (c : String) (l : List Attempt) (s : SimState) :
    (l.foldl (step c) s).bytes_success.length = s.bytes_success.length := by
  induction l generalizing s with
  | nil => rfl
  | cons a t ih => rw [List.foldl_cons, ih, step_bytes_success_length]

theorem foldl_energy_length (c : String) (l : List Attempt) (s : SimState) :
    (l.foldl (step c) s).energy.length = s.energy.length := by
  induction l generalizing s with
  | nil => rfl
  | cons a t ih => rw [List.foldl_cons, ih, step_energy_length]

theorem replicate_zero_getD (N j : Nat) : (List.replicate N (0:ℚ)).getD j 0 = 0 := by
  rw [List.getD_eq_getElem?_getD, List.getElem?_replicate]
  split <;> rfl

theorem step_eq_collided {c : String} {s : SimState} {a : Attempt}
    (h : attempt_collided c s a = true) : step c s a = step_collided c s a := by
  unfold step
  rw [if_pos h]

theorem step_eq_success {c : String} {s : SimState} {a : Attempt}
    (h : attempt_collided c s a = false) : step c s a = step_success c s a := by
  unfold step
  rw [if_neg (by simp [h])]

/-! ### Facts about the baseline idle-charge loop -/

theorem foldl_addAt_length (x : ℚ) (ns : List Nat) (e : List ℚ) :
    (ns.foldl (fun e n => addAt e n x) e).length = e.length := by
  induction ns generalizing e with
  | nil => rfl
  | cons n t ih => rw [List.foldl_cons, ih, addAt_length]

theorem foldl_addAt_le (ns : List Nat) (e : List ℚ) (i : Nat) {x : ℚ} (hx : 0 ≤ x) :
    e.getD i 0 ≤ (ns.foldl (fun e n => addAt e n x) e).getD i 0 := by
  induction ns generalizing e with
  | nil => exact le_refl _
  | cons n t ih => exact le_trans (le_getD_addAt e n i hx) (ih _)

theorem foldl_addAt_getD_not_mem (x : ℚ) (ns : List Nat) (e : List ℚ) (i : Nat)
    (h : ∀ n ∈ ns, n ≠ i) :
    (ns.foldl (fun e n => addAt e n x) e).getD i 0 = e.getD i 0 := by
  induction ns generalizing e with
  | nil => rfl
  | cons n t ih =>
      rw [List.foldl_cons, ih _ fun m hm => h m (List.mem_cons_of_mem n hm)]
      exact getD_addAt_ne e x (h n (List.mem_cons_self n t))

theorem add_baseline_getD (N : Nat) (T : ℚ) (e : List ℚ) (i : Nat)
    (hi : i < N) (hlen : i < e.length) :
    (add_baseline N T e).getD i 0 = e.getD i 0 + (I_idle * Vcc) * (T / 1000) := by
  unfold add_baseline
  induction N with
  | zero => omega
  | succ m ih =>
      rw [List.range_succ, List.foldl_append, List.foldl_cons, List.foldl_nil]
      rcases Nat.lt_or_ge i m with h | h
      · rw [getD_addAt_ne _ _ (by omega), ih h]
      · have hi' : i = m := by omega
        subst hi'
        rw [getD_addAt_self _ (by rw [foldl_addAt_length]; exact hlen)]
        rw [foldl_addAt_getD_not_mem _ _ _ _ fun n hn => by
          have := List.mem_range.mp hn; omega]

/-! ### Counting helpers -/

theorem collided_flags_length (c : String) (l : List Attempt) (s : SimState) :
    (collided_flags c s l).length = l.length := by
  induction l generalizing s with
  | nil => rfl
  | cons a t ih => simp [collided_flags, ih]

theorem bool_count_true_add_false (l : List Bool) :
    l.count true + l.count false = l.length := by
  induction l with
  | nil => rfl
  | cons b t ih => cases b <;> simp [List.count_cons, ih] <;> omega

theorem list_sum_eq_sum_range (l : List ℚ) :
    l.sum = ∑ i ∈ Finset.range l.length, l.getD i 0 := by
  induction l with
  | nil => simp
  | cons a t ih =>
      rw [List.sum_cons, List.length_cons, Finset.sum_range_succ']
      simp only [List.getD_cons_succ, List.getD_cons_zero]
      rw [← ih]
      ring

/-! ### The claims -/

/-- **C1**: for every attempt processed by the protocol walker, the
wake-up record is appended to the ledger before the collision check (it
is a prefix of the post-step ledger right after the prior entries, in
both outcomes), and the attempt is marked collided if and only if some
*other* ledger entry — the scan runs over the ledger as it was before
the candidate was appended, so the candidate itself is excluded — has
phase tag `"W"`, the same target, and a half-open interval overlapping
the candidate wake-up interval under the test
`not (existing.end <= start or existing.start >= end)`. -/
theorem C1_wakeup_append_and_collision_iff (c : String) (s : SimState) (a : Attempt) :
    (step c s a).transmissions.take (s.transmissions.length + 1)
      = s.transmissions ++ [wake_record c a]
    ∧ (attempt_collided c s a = true ↔
        ∃ tr ∈ s.transmissions, tr.type = "W" ∧ tr.target = a.target
          ∧ ¬(tr.end_ ≤ wake_start a ∨ tr.start ≥ wake_end c a)) := by
  refine ⟨step_wake_record_appended c s a, ?_⟩
  unfold attempt_collided check_collision
  simp only [List.any_eq_true, Bool.and_eq_true, beq_iff_eq, Bool.not_eq_true',
    Bool.or_eq_false_iff, decide_eq_false_iff_not]
  constructor
  · rintro ⟨tr, htr, ⟨h1, h2⟩, h3, h4⟩
    exact ⟨tr, htr, h2, h1, fun h => h.elim h3 h4⟩
  · rintro ⟨tr, htr, h2, h1, h34⟩
    exact ⟨tr, htr, ⟨h1, h2⟩, fun h => h34 (Or.inl h), fun h => h34 (Or.inr h)⟩

/-- **C2**: a collided attempt charges the sender the idle-equivalent
energy for the fixed no-acknowledgment timeout `tau_noAck` (the sum of
the wake-up, acknowledgment and safety-margin durations) on top of its
sense and wake-up charges, adds exactly `size_W` to the sender's
bytes-sent (and nothing to any other node's), adds nothing to any
node's bytes-delivered, increments `attempts_done`, appends only the
wake-up record (no ACK or DATA records), and processing then simply
moves on to the remaining attempts — the collided attempt contributes
exactly one processing step and is never retried. -/
theorem C2_collided_attempt_effects (c : String) (s : SimState) (a : Attempt)
    (as : List Attempt) (hcol : attempt_collided c s a = true)
    (hn : a.node < s.energy.length) (hne : a.node ≠ a.target) :
    (step c s a).bytes_sent = addAt s.bytes_sent a.node size_W
    ∧ (step c s a).bytes_success = s.bytes_success
    ∧ (step c s a).attempts_done = s.attempts_done + 1
    ∧ (step c s a).transmissions = s.transmissions ++ [wake_record c a]
    ∧ (step c s a).energy.getD a.node 0
        = s.energy.getD a.node 0 + (I_sense * Vcc) * tau_sense / 1000
          + (I_txW c * Vcc) * (W_dur c / 1000) + (I_idle * Vcc) * (tau_noAck / 1000)
    ∧ tau_noAck = tau_txW + tau_txAck + tau_safe
    ∧ ((a :: as).foldl (step c) s).attempts_done = s.attempts_done + (1 + as.length) := by
  refine ⟨?_, ?_, ?_, ?_, ?_, rfl, ?_⟩
  · rw [step_eq_collided hcol]; rfl
  · rw [step_eq_collided hcol]; rfl
  · rw [step_eq_collided hcol]; rfl
  · rw [step_eq_collided hcol]; rfl
  · rw [step_eq_collided hcol]
    dsimp only [step_collided]
    rw [getD_addAt_self _ (by rw [addAt_length, addAt_length, addAt_length]; exact hn)]
    rw [getD_addAt_self _ (by rw [addAt_length, addAt_length]; exact hn)]
    rw [getD_addAt_ne _ _ (Ne.symm hne)]
    rw [getD_addAt_self _ hn]
  · rw [List.foldl_cons, foldl_attempts_done, step_attempts_done]
    omega

/-- Witness for C2 at a concrete collided input: a ledger already holds
a wake-up record to node 2 over `[5, 9)`, and the attempt by node 1 at
`t = 6` to node 2 has wake-up interval `[6.5, 9.5)` under `config1`,
which overlaps. -/
theorem C2_collided_attempt_effects_witness :
    attempt_collided "config1"
        ⟨[⟨5, 9, 0, 2, "W"⟩], [0, 0, 0], [0, 0, 0], [0, 0, 0], 1⟩ ⟨1, 6, 2⟩ = true
    ∧ (step "config1"
        ⟨[⟨5, 9, 0, 2, "W"⟩], [0, 0, 0], [0, 0, 0], [0, 0, 0], 1⟩ ⟨1, 6, 2⟩).bytes_success
        = ([0, 0, 0] : List ℚ) := by
  have hcol : attempt_collided "config1"
      ⟨[⟨5, 9, 0, 2, "W"⟩], [0, 0, 0], [0, 0, 0], [0, 0, 0], 1⟩ ⟨1, 6, 2⟩ = true := by
    norm_num [attempt_collided, check_collision, wake_start, wake_end, W_dur,
      tau_sense, tau_txW]
  exact ⟨hcol, (C2_collided_attempt_effects "config1" _ _ [] hcol (by decide)
    (by decide)).2.1⟩

/-- **C3**: an attempt that completes without collision increases the
sender's bytes-sent by exactly `size_W + size_ACK + size_DATA` and the
sender's bytes-delivered by exactly `size_DATA`; the target's byte
totals are unchanged. -/
theorem C3_success_byte_attribution (c : String) (s : SimState) (a : Attempt)
    (hcol : attempt_collided c s a = false)
    (hs : a.node < s.bytes_sent.length) (hd : a.node < s.bytes_success.length)
    (hne : a.node ≠ a.target) :
    (step c s a).bytes_sent.getD a.node 0
      = s.bytes_sent.getD a.node 0 + (size_W + size_ACK + size_DATA)
    ∧ (step c s a).bytes_success.getD a.node 0
      = s.bytes_success.getD a.node 0 + size_DATA
    ∧ (step c s a).bytes_sent.getD a.target 0 = s.bytes_sent.getD a.target 0
    ∧ (step c s a).bytes_success.getD a.target 0 = s.bytes_success.getD a.target 0 := by
  rw [step_eq_success hcol]
  dsimp only [step_success]
  exact ⟨getD_addAt_self _ hs, getD_addAt_self _ hd,
    getD_addAt_ne _ _ hne, getD_addAt_ne _ _ hne⟩

/-- Witness for C3: node 0's lone attempt to node 1 at `t = 5` in a
fresh 2-node state does not collide, and the sender's bytes-sent grows
by the three packet sizes. -/
theorem C3_success_byte_attribution_witness :
    attempt_collided "config1" (initState 2) ⟨0, 5, 1⟩ = false
    ∧ (step "config1" (initState 2) ⟨0, 5, 1⟩).bytes_sent.getD 0 0
        = (initState 2).bytes_sent.getD 0 0 + (size_W + size_ACK + size_DATA) := by
  have hcol : attempt_collided "config1" (initState 2) ⟨0, 5, 1⟩ = false := rfl
  exact ⟨hcol, (C3_success_byte_attribution "config1" (initState 2) ⟨0, 5, 1⟩ hcol
    (by decide) (by decide) (by decide)).1⟩

/-- **C10**: the first attempt processed in a run starts from the fresh
state, whose ledger is empty, so its collision check finds nothing: it
is never marked collided, it runs all three phases (the post-step ledger
is exactly the wake-up, acknowledgment and data records), and it
contributes the full `size_DATA` to its sender's bytes-delivered. -/
theorem C10_first_attempt_completes (c : String) (N : Nat) (a : Attempt)
    (hn : a.node < N) :
    attempt_collided c (initState N) a = false
    ∧ (step c (initState N) a).transmissions
        = [wake_record c a, ack_record c a, data_record c a]
    ∧ (step c (initState N) a).bytes_success.getD a.node 0 = size_DATA := by
  have h0 : attempt_collided c (initState N) a = false := rfl
  refine ⟨h0, ?_, ?_⟩
  · rw [step_eq_success h0]
    rfl
  · rw [step_eq_success h0]
    dsimp only [step_success, initState]
    rw [getD_addAt_self _ (by simpa using hn), replicate_zero_getD]
    exact zero_add _

/-- Witness for C10: the attempt by node 0 to node 1 at `t = 5` in a
fresh 2-node run is not collided. -/
theorem C10_first_attempt_completes_witness :
    (0 : Nat) < 2
    ∧ attempt_collided "config1" (initState 2) ⟨0, 5, 1⟩ = false :=
  ⟨by decide, (C10_first_attempt_completes "config1" 2 ⟨0, 5, 1⟩ (by decide)).1⟩

/-! ### Configuration-identity helpers for C4 -/

theorem step_config3_of_unrecognized {c : String}
    (h1 : c ≠ "config1") (h2 : c ≠ "config2") : step c = step "config3" := by
  have hW : W_dur c = W_dur "config3" := by
    unfold W_dur
    rw [if_neg h1, if_neg h2, if_neg (by decide), if_neg (by decide)]
  have hI : I_txW c = I_txW "config3" := by
    unfold I_txW
    rw [if_neg h1, if_neg h2, if_neg (by decide), if_neg (by decide)]
  have hA : ack_I c = ack_I "config3" := by
    unfold ack_I
    rw [if_neg h2, if_neg (by decide)]
  have hD : data_dur c = data_dur "config3" := by
    unfold data_dur
    rw [if_neg h1, if_neg h2, if_neg (by decide), if_neg (by decide)]
  have hDI : data_I c = data_I "config3" := by
    unfold data_I
    rw [if_neg h1, if_neg h2, if_neg (by decide), if_neg (by decide)]
  funext s a
  simp only [step, step_collided, step_success, attempt_collided, wake_record, ack_record,
    data_record, wake_end, wake_start, ack_start, ack_end, data_start, data_end,
    hW, hI, hA, hD, hDI]

theorem run_core_config3_of_unrecognized {c : String}
    (h1 : c ≠ "config1") (h2 : c ≠ "config2") (N : Nat) (T : ℚ)
    (attempts : List Attempt) :
    run_core N T c attempts = run_core N T "config3" attempts := by
  simp only [run_core, step_config3_of_unrecognized h1 h2]

/-- **C4 — counterexample**: with an unrecognized configuration identity
(`"bogus"`), the run does not fail with a configuration error: it
produces a complete run result (here with one attempt processed). -/
theorem C4_counterexample_unrecognized_config_produces_result :
    run_simulation 2 10 (fun n => if n = 0 then [(3, 0)] else [(20, 5)]) "bogus"
      = some (run_core 2 10 "bogus" [⟨0, 3, 1⟩])
    ∧ (run_core 2 10 "bogus" [⟨0, 3, 1⟩]).attempts_done = 1 := by
  have hsched : schedule_attempts 2 10 (fun n => if n = 0 then [(3, 0)] else [(20, 5)])
      = some [⟨0, 3, 1⟩] := by
    norm_num [schedule_attempts, gen_all, gen_node, choice_pool, random_choice,
      show List.range 2 = [0, 1] from rfl, List.filter_cons, List.filter_nil]
  refine ⟨?_, ?_⟩
  · rw [run_simulation, hsched]
    rfl
  · simp only [run_core]
    rw [List.foldl_cons, List.foldl_nil, step_attempts_done]
    rfl

/-- **C4 (amended)**: the engine performs no configuration validation at
all.  An unrecognized configuration identity is not rejected: the run
executes exactly the hybrid (`config3`) semantics and returns a normal
result.  A non-positive horizon is not rejected either: the generator
returns an empty attempt stream and the run completes normally, and a
run with `N = 0` nodes likewise returns a complete (empty) run result
rather than a configuration error. -/
theorem C4_amended_no_validation (N : Nat) (T : ℚ) (draws : Nat → List (ℚ × Nat))
    (c : String) (h1 : c ≠ "config1") (h2 : c ≠ "config2") :
    run_simulation N T draws c = run_simulation N T draws "config3"
    ∧ (T ≤ 0 → schedule_attempts N T draws = some [])
    ∧ run_simulation 0 T draws c = some (run_core 0 T c []) := by
  have hcore : run_core N T c = run_core N T "config3" := by
    funext attempts
    exact run_core_config3_of_unrecognized h1 h2 N T attempts
  refine ⟨?_, ?_, ?_⟩
  · rw [run_simulation, run_simulation, hcore]
  · intro hT
    have hnode : ∀ node, gen_node N node T 0 (draws node) = some [] := by
      intro node
      cases hd : draws node with
      | nil => rfl
      | cons d rest =>
          show (if (0:ℚ) < T then _ else _) = _
          rw [if_neg (not_lt.mpr hT)]
    have hall : ∀ ns : List Nat, gen_all N T draws ns = some [] := by
      intro ns
      induction ns with
      | nil => rfl
      | cons n t ih => simp [gen_all, hnode, ih]
    rw [schedule_attempts, hall]
    simp
  · rw [run_simulation]
    have h0 : schedule_attempts 0 T draws = some [] := by
      rw [schedule_attempts]
      simp [gen_all]
    rw [h0]
    rfl

/-- Witness for the amended C4: the identity `"bogus"` is unrecognized,
and the run with it equals the `config3` run. -/
theorem C4_amended_no_validation_witness :
    ("bogus" ≠ "config1" ∧ "bogus" ≠ "config2")
    ∧ run_simulation 2 10 (fun n => if n = 0 then [(3, 0)] else [(20, 5)]) "bogus"
        = run_simulation 2 10 (fun n => if n = 0 then [(3, 0)] else [(20, 5)]) "config3" :=
  ⟨⟨by decide, by decide⟩,
    (C4_amended_no_validation 2 10 (fun n => if n = 0 then [(3, 0)] else [(20, 5)])
      "bogus" (by decide) (by decide)).1⟩

/-- **C5**: throughout a run with a non-negative horizon, every node's
energy, bytes-sent and bytes-delivered totals are non-negative after any
number of processed attempts, no processing step decreases any of them,
and the final baseline idle charge does not decrease any energy total
either. -/
theorem C5_totals_nonneg_monotone (c : String) (N : Nat) (T : ℚ) (hT : 0 ≤ T)
    (attempts : List Attempt) (k i : Nat) :
    (0 ≤ ((attempts.take k).foldl (step c) (initState N)).energy.getD i 0
      ∧ 0 ≤ ((attempts.take k).foldl (step c) (initState N)).bytes_sent.getD i 0
      ∧ 0 ≤ ((attempts.take k).foldl (step c) (initState N)).bytes_success.getD i 0)
    ∧ (((attempts.take k).foldl (step c) (initState N)).energy.getD i 0
        ≤ ((attempts.take (k + 1)).foldl (step c) (initState N)).energy.getD i 0
      ∧ ((attempts.take k).foldl (step c) (initState N)).bytes_sent.getD i 0
        ≤ ((attempts.take (k + 1)).foldl (step c) (initState N)).bytes_sent.getD i 0
      ∧ ((attempts.take k).foldl (step c) (initState N)).bytes_success.getD i 0
        ≤ ((attempts.take (k + 1)).foldl (step c) (initState N)).bytes_success.getD i 0)
    ∧ (attempts.foldl (step c) (initState N)).energy.getD i 0
        ≤ (add_baseline N T ((attempts.foldl (step c) (initState N)).energy)).getD i 0 := by
  refine ⟨⟨?_, ?_, ?_⟩, ⟨?_, ?_, ?_⟩, ?_⟩
  · simpa [initState, replicate_zero_getD]
      using foldl_energy_le c (attempts.take k) (initState N) i
  · simpa [initState, replicate_zero_getD]
      using foldl_bytes_sent_le c (attempts.take k) (initState N) i
  · simpa [initState, replicate_zero_getD]
      using foldl_bytes_success_le c (attempts.take k) (initState N) i
  · rw [List.take_succ, List.foldl_append]
    exact foldl_energy_le c _ _ i
  · rw [List.take_succ, List.foldl_append]
    exact foldl_bytes_sent_le c _ _ i
  · rw [List.take_succ, List.foldl_append]
    exact foldl_bytes_success_le c _ _ i
  · exact foldl_addAt_le _ _ _ (baseline_charge_nonneg hT)

/-- Witness for C5 at a concrete run: `config1`, two nodes, horizon 200,
one attempt, after zero processed attempts, node 0. -/
theorem C5_totals_nonneg_monotone_witness :
    (0 : ℚ) ≤ 200
    ∧ 0 ≤ (([(⟨0, 5, 1⟩ : Attempt)].take 0).foldl (step "config1")
        (initState 2)).energy.getD 0 0 :=
  ⟨by norm_num,
    (C5_totals_nonneg_monotone "config1" 2 200 (by norm_num) [⟨0, 5, 1⟩] 0 0).1.1⟩

/-- **C6**: at the end of a run every attempt is accounted exactly once:
`attempts_done` equals the number of collided attempts plus the number
of non-collided (completed) attempts, and is at most the number of
generated attempts. -/
theorem C6_attempts_accounted (c : String) (N : Nat) (T : ℚ) (attempts : List Attempt) :
    (run_core N T c attempts).attempts_done
      = (collided_flags c (initState N) attempts).count true
        + (collided_flags c (initState N) attempts).count false
    ∧ (run_core N T c attempts).attempts_done ≤ attempts.length := by
  have hdone : (run_core N T c attempts).attempts_done = attempts.length := by
    simp only [run_core]
    rw [foldl_attempts_done]
    simp [initState]
  constructor
  · rw [hdone, bool_count_true_add_false, collided_flags_length]
  · rw [hdone]

/-- **C7**: the run result's network-wide total of delivered bytes is
the sum over all nodes of the per-node bytes-delivered totals. -/
theorem C7_total_is_sum_of_per_node (c : String) (N : Nat) (T : ℚ)
    (attempts : List Attempt) :
    (run_core N T c attempts).total_throughput_bytes
      = ∑ i ∈ Finset.range N, (run_core N T c attempts).bytes_success.getD i 0 := by
  have hlen : (attempts.foldl (step c) (initState N)).bytes_success.length = N := by
    rw [foldl_bytes_success_length]
    simp [initState]
  simp only [run_core]
  rw [list_sum_eq_sum_range, hlen]

/-- **C9**: after all attempts are processed every node receives the
fixed idle-baseline charge `(I_idle * Vcc) * (sim_time / 1000)` (idle
current × supply voltage × the full horizon, converted ms → s),
regardless of activity; and a run with zero generated attempts reports
zero attempts processed, zero bytes sent and delivered for every node,
zero total throughput, and per-node energy equal to exactly the
idle-baseline charge. -/
theorem C9_idle_baseline (c : String) (N : Nat) (T : ℚ) (e : List ℚ) (i : Nat)
    (hi : i < N) (hlen : e.length = N) :
    (add_baseline N T e).getD i 0 = e.getD i 0 + (I_idle * Vcc) * (T / 1000)
    ∧ (run_core N T c []).attempts_done = 0
    ∧ (run_core N T c []).bytes_sent.getD i 0 = 0
    ∧ (run_core N T c []).bytes_success.getD i 0 = 0
    ∧ (run_core N T c []).energy_J.getD i 0 = (I_idle * Vcc) * (T / 1000)
    ∧ (run_core N T c []).total_throughput_bytes = 0 := by
  refine ⟨add_baseline_getD N T e i hi (by omega), rfl, ?_, ?_, ?_, ?_⟩
  · exact replicate_zero_getD N i
  · exact replicate_zero_getD N i
  · have h := add_baseline_getD N T (List.replicate N 0) i hi (by simpa using hi)
    rw [replicate_zero_getD, zero_add] at h
    exact h
  · simp [run_core, initState, List.sum_replicate]

/-- Witness for C9: two nodes, horizon 200, a concrete energy array. -/
theorem C9_idle_baseline_witness :
    ((0 : Nat) < 2 ∧ ([1, 2] : List ℚ).length = 2)
    ∧ (run_core 2 200 "config1" []).attempts_done = 0 :=
  ⟨⟨by decide, by decide⟩,
    (C9_idle_baseline "config1" 2 200 [1, 2] 0 (by decide) (by decide)).2.1⟩

/-! ### Arrival-generator helpers for C8 -/

theorem random_choice_mem {pool : List Nat} {c target : Nat}
    (h : random_choice pool c = some target) : target ∈ pool := by
  obtain ⟨hlt, he⟩ := List.getElem?_eq_some.mp h
  exact he ▸ List.getElem_mem hlt

theorem choice_pool_mem {N node x : Nat} (h : x ∈ choice_pool N node) :
    x < N ∧ x ≠ node := by
  obtain ⟨hr, hx⟩ := List.mem_filter.mp h
  exact ⟨List.mem_range.mp hr, by simpa using hx⟩

theorem gen_node_mem (N node : Nat) (T : ℚ) :
    ∀ (draws : List (ℚ × Nat)) (t : ℚ) (as : List Attempt),
      gen_node N node T t draws = some as →
      ∀ a ∈ as, a.node = node ∧ a.time < T ∧ a.target ≠ node ∧ a.target < N := by
  intro draws
  induction draws with
  | nil =>
      intro t as h a ha
      cases Option.some.inj h
      simp at ha
  | cons d rest ih =>
      intro t as h a ha
      simp only [gen_node] at h
      split at h
      · split at h
        · cases Option.some.inj h
          simp at ha
        · rename_i h2
          obtain ⟨target, hc, h'⟩ := Option.bind_eq_some.mp h
          obtain ⟨as', hg, he⟩ := Option.map_eq_some'.mp h'
          subst he
          obtain ⟨hpool1, hpool2⟩ := choice_pool_mem (random_choice_mem hc)
          rcases List.mem_cons.mp ha with rfl | hmem
          · exact ⟨rfl, not_le.mp (by simpa using h2), hpool2, hpool1⟩
          · exact ih (t + d.1) as' hg a hmem
      · cases Option.some.inj h
        simp at ha

theorem gen_all_mem (N : Nat) (T : ℚ) (draws : Nat → List (ℚ × Nat)) :
    ∀ (ns : List Nat) (as : List Attempt), gen_all N T draws ns = some as →
      ∀ a ∈ as, a.node ∈ ns ∧ a.time < T ∧ a.target ≠ a.node ∧ a.target < N := by
  intro ns
  induction ns with
  | nil =>
      intro as h a ha
      cases Option.some.inj h
      simp at ha
  | cons n rest ih =>
      intro as h a ha
      simp only [gen_all] at h
      obtain ⟨as1, h1, h'⟩ := Option.bind_eq_some.mp h
      obtain ⟨more, h2, h3⟩ := Option.bind_eq_some.mp h'
      cases Option.some.inj h3
      rcases List.mem_append.mp ha with hmem | hmem
      · obtain ⟨hnode, ht, hne, hlt⟩ := gen_node_mem N n T (draws n) 0 as1 h1 a hmem
        refine ⟨?_, ht, ?_, hlt⟩
        · rw [hnode]
          exact List.mem_cons_self n rest
        · rw [hnode]
          exact hne
      · obtain ⟨hnode, ht, hne, hlt⟩ := ih more h2 a hmem
        exact ⟨List.mem_cons_of_mem n hnode, ht, hne, hlt⟩

/-- **C8**: every attempt stream the generator hands to the driver
(whenever generation succeeds) contains only attempts whose time is
strictly below the horizon (the first overshooting attempt and all
later ones are discarded), whose destination differs from its origin
and is one of the `N` nodes, and the merged stream is sorted so that
times are non-decreasing. -/
theorem C8_arrival_stream (N : Nat) (T : ℚ) (draws : Nat → List (ℚ × Nat))
    (attempts : List Attempt) (h : schedule_attempts N T draws = some attempts) :
    (∀ a ∈ attempts, a.time < T)
    ∧ (∀ a ∈ attempts, a.target ≠ a.node ∧ a.target < N ∧ a.node < N)
    ∧ attempts.Pairwise fun a b => a.time ≤ b.time := by
  rw [schedule_attempts] at h
  obtain ⟨l, hl, hm⟩ := Option.map_eq_some'.mp h
  have hperm := List.mergeSort_perm l fun a b => decide (a.time ≤ b.time)
  have hmem : ∀ a ∈ attempts, a ∈ l := by
    intro a ha
    rw [← hm] at ha
    exact hperm.mem_iff.mp ha
  have hprops := gen_all_mem N T draws (List.range N) l hl
  refine ⟨?_, ?_, ?_⟩
  · intro a ha
    exact (hprops a (hmem a ha)).2.1
  · intro a ha
    obtain ⟨hnode, _, hne, hlt⟩ := hprops a (hmem a ha)
    exact ⟨hne, hlt, List.mem_range.mp hnode⟩
  · rw [← hm]
    refine (List.sorted_mergeSort ?_ ?_ l).imp fun hab => by simpa using hab
    · intro a b d hab hbd
      simp only [decide_eq_true_eq] at *
      exact le_trans hab hbd
    · intro a b
      simpa using le_total a.time b.time

/-- Witness for C8: the concrete draw lists give node 0 one retained
attempt at `t = 3` aimed at node 1, and node 1 none. -/
theorem C8_arrival_stream_witness :
    schedule_attempts 2 10 (fun n => if n = 0 then [(3, 0)] else [(20, 5)])
      = some [⟨0, 3, 1⟩]
    ∧ (∀ a ∈ ([⟨0, 3, 1⟩] : List Attempt), a.time < 10) := by
  have hsched : schedule_attempts 2 10 (fun n => if n = 0 then [(3, 0)] else [(20, 5)])
      = some [⟨0, 3, 1⟩] := by
    norm_num [schedule_attempts, gen_all, gen_node, choice_pool, random_choice,
      show List.range 2 = [0, 1] from rfl, List.filter_cons, List.filter_nil]
  exact ⟨hsched, (C8_arrival_stream 2 10 _ [⟨0, 3, 1⟩] hsched).1⟩

end MiMac
